import Mathlib

/-!
Shallow embedding of the control-law core of the repository:
`src/selfdrive/controls/lib/pid.py`, `latcontrol_pid.py` and `longcontrol.py`.
Python floats are modelled as rationals; Python exceptions as an `Except` result.
-/

namespace Op5

/-- Python exceptions raised by the embedded code. -/
inductive PyExn where
  | nameError (n : String)
  | typeError (n : String)
  | indexError
  | zeroDivisionError
  deriving DecidableEq, Repr

/-- Modelled from the spec: `clip` from `common/numpy_fast` (not under `src/`):
"control = clamp(raw, neg_limit, pos_limit)" — clamp `x` into `[lo, hi]`. -/
def clip (x lo hi : ℚ) : ℚ := max lo (min hi x)

/-- Modelled from the spec: `interp` from `common/numpy_fast` (not under `src/`):
"linear interpolation over their breakpoint table at `speed`, clamped to table
endpoints outside range".  `xp` are the breakpoints, `fp` the values. -/
def interp (x : ℚ) (xp fp : List ℚ) : ℚ :=
  let hi := (xp.takeWhile (fun a => decide (a < x))).length
  if hi = xp.length then fp.getLastD 0
  else if hi = 0 then fp.headD 0
  else
    (x - xp.getD (hi - 1) 0) * (fp.getD hi 0 - fp.getD (hi - 1) 0)
        / (xp.getD hi 0 - xp.getD (hi - 1) 0)
      + fp.getD (hi - 1) 0

/-- `apply_deadzone` from `pid.py`: shrink `error` towards zero by `deadzone`;
inside the band the error becomes exactly `0`. -/
def apply_deadzone (error deadzone : ℚ) : ℚ :=
  if deadzone < error then error - deadzone
  else if error < -deadzone then error + deadzone
  else 0

/-- The attribute state of a `PIDController` instance (`pid.py`).  The gain tables
are the `[breakpoints, values]` pairs stored in `self._k_p`, `self._k_i`,
`self._k_d`.  `pos_limit`/`neg_limit` are `None` until a caller sets them; every
claim below concerns states where both limits are set, so they are plain
rationals here. -/
structure PIDState where
  kp_bp : List ℚ
  kp_v : List ℚ
  ki_bp : List ℚ
  ki_v : List ℚ
  kd_bp : List ℚ
  kd_v : List ℚ
  k_f : ℚ
  pos_limit : ℚ
  neg_limit : ℚ
  i_decay_factor : ℚ
  i_unwind_rate : ℚ
  i_rate : ℚ
  d_period : ℕ
  speed : ℚ
  p : ℚ
  i : ℚ
  f : ℚ
  control : ℚ
  errors : List ℚ
  deriving DecidableEq, Repr

/-- The `k_p` property: `interp(self.speed, self._k_p[0], self._k_p[1])`. -/
def PIDState.k_p (st : PIDState) : ℚ := interp st.speed st.kp_bp st.kp_v

/-- The `k_i` property. -/
def PIDState.k_i (st : PIDState) : ℚ := interp st.speed st.ki_bp st.ki_v

/-- The `k_d` property. -/
def PIDState.k_d (st : PIDState) : ℚ := interp st.speed st.kd_bp st.kd_v

/-- `PIDController.reset` from `pid.py`: zero `p`, `i`, `f`, `control` and clear
the error history. -/
def PIDState.reset (st : PIDState) : PIDState :=
  { st with p := 0, i := 0, f := 0, control := 0, errors := [] }

/-- Python list indexing `l[-k]` for a list of length ≥ `k` (note `l[-0]` is
`l[0]`). -/
def pyNegIdx (l : List ℚ) (k : ℕ) : Option ℚ :=
  if k = 0 then l.get? 0 else l.get? (l.length - k)

/-- `PIDController.update` from `pid.py`, additionally exposing the deadzoned
error and the derivative term `d`.  When `self._d_period = 0`, Python reaches
`self.errors[-0]` (an `IndexError` on an empty history) and otherwise divides by
zero; the `Except` result models those raises.  Statement order follows the
source: the anti-windup bleed `i_bf` reads the previous tick's `p`, `i`, `f`;
`self.f` is clamped before summation; `self.i` is decayed after `control` is
formed; the error history is appended to and trimmed to `_d_period` entries. -/
def PIDState.updateCore (st : PIDState)
    (setpoint measurement last_output speed feedforward deadzone : ℚ) :
    Except PyExn (PIDState × ℚ × ℚ) :=
  let st0 := { st with speed := speed }
  let i_bf := st0.i_unwind_rate * (st0.p + st0.i + st0.f - last_output)
  let error := apply_deadzone (setpoint - measurement) deadzone
  let p := error * st0.k_p
  let i1 := st0.i + error * st0.k_i * st0.i_rate - i_bf
  let f0 := feedforward * st0.k_f
  let dE : Except PyExn ℚ :=
    if st0.d_period ≤ st0.errors.length then
      match pyNegIdx st0.errors st0.d_period with
      | none => .error .indexError
      | some e0 =>
          if (st0.d_period : ℚ) = 0 then .error .zeroDivisionError
          else .ok ((error - e0) / (st0.d_period : ℚ) * st0.k_d)
    else .ok 0
  match dE with
  | .error e => .error e
  | .ok d =>
      let f := clip f0 st0.neg_limit st0.pos_limit
      let control := p + i1 + f + d
      let i2 := st0.i_decay_factor * i1
      let errors1 := st0.errors ++ [error]
      let errors2 :=
        if st0.d_period < errors1.length then errors1.drop (errors1.length - st0.d_period)
        else errors1
      let ctl := clip control st0.neg_limit st0.pos_limit
      .ok ({ st0 with p := p, i := i2, f := f, control := ctl, errors := errors2 }, error, d)

/-- `PIDController.update`: the stored and returned `self.control` together with
the new attribute state. -/
def PIDState.update (st : PIDState)
    (setpoint measurement last_output speed feedforward deadzone : ℚ) :
    Except PyExn PIDState :=
  (st.updateCore setpoint measurement last_output speed feedforward deadzone).map (·.1)

/-- The value of the derivative term of `PIDController.update` when
`_d_period ≥ 1`: the fixed-lag difference against `self.errors[-self._d_period]`
once the history is full, `0` before. -/
def dTermVal (st : PIDState) (error spd : ℚ) : ℚ :=
  if st.d_period ≤ st.errors.length then
    (error - st.errors.getD (st.errors.length - st.d_period) 0) / (st.d_period : ℚ)
      * interp spd st.kd_bp st.kd_v
  else 0

/-- The attribute state produced by a successful `PIDController.update`. -/
def updateRun (st : PIDState) (setpoint measurement last_output speed feedforward deadzone : ℚ) :
    PIDState :=
  let error := apply_deadzone (setpoint - measurement) deadzone
  let i_bf := st.i_unwind_rate * (st.p + st.i + st.f - last_output)
  let p := error * interp speed st.kp_bp st.kp_v
  let i1 := st.i + error * interp speed st.ki_bp st.ki_v * st.i_rate - i_bf
  let f := clip (feedforward * st.k_f) st.neg_limit st.pos_limit
  let d := dTermVal st error speed
  let errors1 := st.errors ++ [error]
  let errors2 :=
    if st.d_period < errors1.length then errors1.drop (errors1.length - st.d_period)
    else errors1
  let i2 := st.i_decay_factor * i1
  let ctl := clip (p + i1 + f + d) st.neg_limit st.pos_limit
  { st with speed := speed, p := p, i := i2, f := f, control := ctl, errors := errors2 }

theorem le_clip (x lo hi : ℚ) : lo ≤ clip x lo hi := le_max_left _ _

theorem clip_le (x lo hi : ℚ) (h : lo ≤ hi) : clip x lo hi ≤ hi := by
  simp only [clip, max_le_iff]
  exact ⟨h, min_le_left _ _⟩

theorem abs_clip_le (x lo hi : ℚ) : |clip x lo hi| ≤ max |lo| |hi| := by
  rcases le_or_lt lo hi with h | h
  · have h1 := le_clip x lo hi
    have h2 := clip_le x lo hi h
    rw [abs_le]
    constructor
    · exact le_trans (neg_le_neg (le_max_left |lo| |hi|)) (le_trans (neg_abs_le lo) h1)
    · exact le_trans h2 (le_trans (le_abs_self hi) (le_max_right _ _))
  · have hcl : clip x lo hi = lo := by
      have hmin : min hi x ≤ lo := le_trans (min_le_left _ _) h.le
      simp [clip, max_eq_left hmin]
    rw [hcl]
    exact le_max_left _ _

/-- A successful `updateCore` is exactly `updateRun` (together with the deadzoned
error and derivative term); success is guaranteed whenever `_d_period ≥ 1`. -/
theorem updateCore_eq (st : PIDState) (sp m lo spd ff dz : ℚ) (hd : 1 ≤ st.d_period) :
    st.updateCore sp m lo spd ff dz =
      .ok (updateRun st sp m lo spd ff dz, apply_deadzone (sp - m) dz,
           dTermVal st (apply_deadzone (sp - m) dz) spd) := by
  have hd0 : st.d_period ≠ 0 := Nat.one_le_iff_ne_zero.mp hd
  have hcast : ((st.d_period : ℚ)) ≠ 0 := Nat.cast_ne_zero.mpr hd0
  simp only [PIDState.updateCore, updateRun, dTermVal, pyNegIdx, PIDState.k_p, PIDState.k_i,
    PIDState.k_d]
  by_cases hl : st.d_period ≤ st.errors.length
  · have hlen : st.errors.length - st.d_period < st.errors.length := by omega
    have hget : st.errors.get? (st.errors.length - st.d_period) =
        some (st.errors.getD (st.errors.length - st.d_period) 0) := by
      simp [List.get?_eq_getElem?, List.getD_eq_getElem?_getD, List.getElem?_eq_getElem hlen]
    simp only [if_pos hl, if_neg hd0, hget, if_neg hcast]
  · simp only [if_neg hl]

theorem update_eq (st : PIDState) (sp m lo spd ff dz : ℚ) (hd : 1 ≤ st.d_period) :
    st.update sp m lo spd ff dz = .ok (updateRun st sp m lo spd ff dz) := by
  simp [PIDState.update, updateCore_eq st sp m lo spd ff dz hd, Except.map]

/-- C1: whenever the output limits satisfy `neg_limit ≤ 0 ≤ pos_limit`, the value
returned by `PIDController.update` and stored in `self.control` lies in
`[neg_limit, pos_limit]`: the final line clamps the raw command with
`clip(control, self.neg_limit, self.pos_limit)`. -/
theorem updateCore_ok_control (st : PIDState) (sp m lo spd ff dz : ℚ) (tr : PIDState × ℚ × ℚ)
    (h : st.updateCore sp m lo spd ff dz = .ok tr) :
    ∃ c, tr.1.control = clip c st.neg_limit st.pos_limit := by
  simp only [PIDState.updateCore] at h
  split at h
  · exact absurd h (by simp)
  · injection h with h1
    subst h1
    exact ⟨_, rfl⟩

theorem C1_update_output_within_limits (st : PIDState) (sp m lo spd ff dz : ℚ) (st' : PIDState)
    (hneg : st.neg_limit ≤ 0) (hpos : 0 ≤ st.pos_limit)
    (h : st.update sp m lo spd ff dz = .ok st') :
    st.neg_limit ≤ st'.control ∧ st'.control ≤ st.pos_limit := by
  have hlim : st.neg_limit ≤ st.pos_limit := le_trans hneg hpos
  rcases hcore : st.updateCore sp m lo spd ff dz with e | tr
  · rw [PIDState.update, hcore] at h
    simp [Except.map] at h
  · rw [PIDState.update, hcore] at h
    simp only [Except.map] at h
    injection h with h1
    obtain ⟨c, hc⟩ := updateCore_ok_control st sp m lo spd ff dz tr hcore
    rw [← h1, hc]
    exact ⟨le_clip _ _ _, clip_le _ _ _ hlim⟩

/-- Concrete state used by the witnesses: `_d_period = 1`, unit gains. -/
def wSt : PIDState :=
  { kp_bp := [0], kp_v := [1], ki_bp := [0], ki_v := [1], kd_bp := [0], kd_v := [1],
    k_f := 1, pos_limit := 1, neg_limit := -1, i_decay_factor := 1,
    i_unwind_rate := 1, i_rate := 1, d_period := 1, speed := 0,
    p := 0, i := 0, f := 0, control := 0, errors := [] }

theorem C1_update_output_within_limits_witness :
    wSt.neg_limit ≤ 0 ∧ 0 ≤ wSt.pos_limit ∧
      (wSt.neg_limit ≤ (updateRun wSt 3 1 0 0 0 0).control ∧
        (updateRun wSt 3 1 0 0 0 0).control ≤ wSt.pos_limit) :=
  ⟨by norm_num [wSt], by norm_num [wSt],
    C1_update_output_within_limits wSt 3 1 0 0 0 0 (updateRun wSt 3 1 0 0 0 0)
      (by norm_num [wSt]) (by norm_num [wSt])
      (update_eq wSt 3 1 0 0 0 0 (by norm_num [wSt]))⟩

theorem updateCore_ok_p (st : PIDState) (sp m lo spd ff dz : ℚ) (tr : PIDState × ℚ × ℚ)
    (h : st.updateCore sp m lo spd ff dz = .ok tr) :
    tr.1.p = apply_deadzone (sp - m) dz * interp spd st.kp_bp st.kp_v := by
  simp only [PIDState.updateCore, PIDState.k_p] at h
  split at h
  · exact absurd h (by simp)
  · injection h with h1
    subst h1
    rfl

/-- C9: once the error history holds at least `D = _d_period` samples, the
derivative term of `PIDController.update` is
`k_d · (error − self.errors[-D]) / D` — the fixed-lag difference against the
sample recorded exactly `D` calls earlier (one error is appended per call and the
history is trimmed to `D` entries, so a full history has length exactly `D` and
`self.errors[-D]` is its oldest entry); with fewer than `D` samples the
derivative term is `0`. -/
theorem C9_derivative_fixed_lag (st : PIDState) (sp m lo spd ff dz : ℚ)
    (st' : PIDState) (e d : ℚ) (hd : 1 ≤ st.d_period)
    (h : st.updateCore sp m lo spd ff dz = .ok (st', e, d)) :
    (st.d_period ≤ st.errors.length →
      d = interp spd st.kd_bp st.kd_v *
            (e - st.errors.getD (st.errors.length - st.d_period) 0) / (st.d_period : ℚ)) ∧
    (st.errors.length < st.d_period → d = 0) := by
  rw [updateCore_eq st sp m lo spd ff dz hd] at h
  simp only [Except.ok.injEq, Prod.mk.injEq] at h
  obtain ⟨hst, he, hdv⟩ := h
  subst he hdv
  constructor
  · intro hfull
    rw [dTermVal, if_pos hfull]
    ring
  · intro hlt
    rw [dTermVal, if_neg (not_le.mpr hlt)]

/-- Concrete state for the C9 witness: `_d_period = 1` with a full history. -/
def wSt9 : PIDState := { wSt with errors := [5] }

theorem C9_derivative_fixed_lag_witness :
    1 ≤ wSt9.d_period ∧ wSt9.d_period ≤ wSt9.errors.length ∧
      dTermVal wSt9 (apply_deadzone (3 - 1) 0) 0 =
        interp 0 wSt9.kd_bp wSt9.kd_v *
          (apply_deadzone (3 - 1) 0 -
            wSt9.errors.getD (wSt9.errors.length - wSt9.d_period) 0) / (wSt9.d_period : ℚ) :=
  ⟨by norm_num [wSt9, wSt], by norm_num [wSt9, wSt],
    (C9_derivative_fixed_lag wSt9 3 1 0 0 0 0 (updateRun wSt9 3 1 0 0 0 0)
        (apply_deadzone (3 - 1) 0) (dTermVal wSt9 (apply_deadzone (3 - 1) 0) 0)
        (by norm_num [wSt9, wSt])
        (updateCore_eq wSt9 3 1 0 0 0 0 (by norm_num [wSt9, wSt]))).1
      (by norm_num [wSt9, wSt])⟩

/-- C10: with `0 ≤ deadzone`, whenever `|setpoint − measurement| ≤ deadzone` the
deadzoned error of `PIDController.update` is exactly `0` (either sign of the raw
error), hence `self.p = error · k_p = 0`; when `|setpoint − measurement| >
deadzone` the error magnitude shrinks by exactly `deadzone` and its sign is
preserved. -/
theorem C10_deadzone_zero_p (sp m dz : ℚ) (hdz : 0 ≤ dz) :
    (|sp - m| ≤ dz → apply_deadzone (sp - m) dz = 0 ∧
      ∀ (st : PIDState) (lo spd ff : ℚ) (tr : PIDState × ℚ × ℚ),
        st.updateCore sp m lo spd ff dz = .ok tr → tr.1.p = 0) ∧
    (dz < |sp - m| →
      |apply_deadzone (sp - m) dz| = |sp - m| - dz ∧
      (0 < sp - m → 0 < apply_deadzone (sp - m) dz) ∧
      (sp - m < 0 → apply_deadzone (sp - m) dz < 0)) := by
  constructor
  · intro habs
    obtain ⟨h1, h2⟩ := abs_le.mp habs
    have hz : apply_deadzone (sp - m) dz = 0 := by
      rw [apply_deadzone, if_neg (not_lt.mpr h2), if_neg (not_lt.mpr h1)]
    refine ⟨hz, ?_⟩
    intro st lo spd ff tr h
    have hp := updateCore_ok_p st sp m lo spd ff dz tr h
    rw [hz, zero_mul] at hp
    exact hp
  · intro hgt
    rcases le_or_lt 0 (sp - m) with hs | hs
    · have hlt : dz < sp - m := by rwa [abs_of_nonneg hs] at hgt
      rw [apply_deadzone, if_pos hlt]
      refine ⟨?_, fun _ => by linarith, fun hneg => absurd hneg (not_lt.mpr hs)⟩
      rw [abs_of_nonneg hs, abs_of_pos (by linarith : (0:ℚ) < sp - m - dz)]
    · have hlt : sp - m < -dz := by
        rw [abs_of_neg hs] at hgt
        linarith
      have hnd : ¬ dz < sp - m := by linarith
      rw [apply_deadzone, if_neg hnd, if_pos hlt]
      refine ⟨?_, fun hpos => absurd hpos (not_lt.mpr hs.le), fun _ => by linarith⟩
      rw [abs_of_neg hs, abs_of_neg (by linarith : sp - m + dz < 0)]
      ring

theorem C10_deadzone_zero_p_witness :
    (0:ℚ) ≤ 2 ∧ |((2:ℚ) - 1)| ≤ 2 ∧ apply_deadzone ((2:ℚ) - 1) 2 = 0 ∧
      (updateRun wSt 2 1 0 0 0 2).p = 0 :=
  ⟨by norm_num, by norm_num,
    ((C10_deadzone_zero_p 2 1 2 (by norm_num)).1 (by norm_num)).1,
    ((C10_deadzone_zero_p 2 1 2 (by norm_num)).1 (by norm_num)).2 wSt 0 0 0
      (updateRun wSt 2 1 0 0 0 2, apply_deadzone (2 - 1) 2,
        dTermVal wSt (apply_deadzone (2 - 1) 2) 0)
      (updateCore_eq wSt 2 1 0 0 0 2 (by norm_num [wSt]))⟩

/-- One tick of input to `PIDController.update`. -/
structure PIDInput where
  setpoint : ℚ
  measurement : ℚ
  speed : ℚ
  feedforward : ℚ
  deadzone : ℚ
  deriving DecidableEq, Repr

/-- Iterated `PIDController.update` with `lastAppliedOutput` held fixed across
the ticks (sustained external saturation). -/
def runPID (st : PIDState) (last : ℚ) : List PIDInput → Except PyExn PIDState
  | [] => .ok st
  | inp :: rest =>
    match st.update inp.setpoint inp.measurement last inp.speed inp.feedforward inp.deadzone with
    | .error e => .error e
    | .ok st' => runPID st' last rest

/-- Bound on `|self.p|` along a run: initial value or error-bound times
gain-bound. -/
def pidP0 (st : PIDState) (E Kp : ℚ) : ℚ := max |st.p| (E * Kp)

/-- Bound on `|self.f|` along a run: initial value or the clamp limits. -/
def pidF0 (st : PIDState) : ℚ := max |st.f| (max |st.neg_limit| |st.pos_limit|)

/-- Per-tick additive contribution to the integrator. -/
def pidM (st : PIDState) (last E Kp Ki : ℚ) : ℚ :=
  E * Ki * |st.i_rate| + st.i_unwind_rate * (pidP0 st E Kp + pidF0 st + |last|)

/-- Bound on `|self.i|` along a run with `lastAppliedOutput` held fixed. -/
def pidIntegralBound (st : PIDState) (last E Kp Ki : ℚ) : ℚ :=
  max |st.i| (pidM st last E Kp Ki / st.i_unwind_rate)

/-- Invariant carried along a run started from `base`: the dynamic terms stay
bounded and the configuration fields are unchanged by `update`. -/
structure BoundedInv (base : PIDState) (last E Kp Ki : ℚ) (s : PIDState) : Prop where
  hp : |s.p| ≤ pidP0 base E Kp
  hf : |s.f| ≤ pidF0 base
  hi : |s.i| ≤ pidIntegralBound base last E Kp Ki
  hneg : s.neg_limit = base.neg_limit
  hpos : s.pos_limit = base.pos_limit
  hdecay : s.i_decay_factor = base.i_decay_factor
  hu : s.i_unwind_rate = base.i_unwind_rate
  hir : s.i_rate = base.i_rate
  hdp : s.d_period = base.d_period
  hkpb : s.kp_bp = base.kp_bp
  hkpv : s.kp_v = base.kp_v
  hkib : s.ki_bp = base.ki_bp
  hkiv : s.ki_v = base.ki_v

theorem updateRun_p_eq (st : PIDState) (sp m lo spd ff dz : ℚ) :
    (updateRun st sp m lo spd ff dz).p =
      apply_deadzone (sp - m) dz * interp spd st.kp_bp st.kp_v := rfl

theorem updateRun_i_eq (st : PIDState) (sp m lo spd ff dz : ℚ) :
    (updateRun st sp m lo spd ff dz).i =
      st.i_decay_factor *
        (st.i + apply_deadzone (sp - m) dz * interp spd st.ki_bp st.ki_v * st.i_rate -
          st.i_unwind_rate * (st.p + st.i + st.f - lo)) := rfl

theorem updateRun_f_eq (st : PIDState) (sp m lo spd ff dz : ℚ) :
    (updateRun st sp m lo spd ff dz).f =
      clip (ff * st.k_f) st.neg_limit st.pos_limit := rfl

theorem updateRun_config (st : PIDState) (sp m lo spd ff dz : ℚ) :
    (updateRun st sp m lo spd ff dz).neg_limit = st.neg_limit ∧
    (updateRun st sp m lo spd ff dz).pos_limit = st.pos_limit ∧
    (updateRun st sp m lo spd ff dz).i_decay_factor = st.i_decay_factor ∧
    (updateRun st sp m lo spd ff dz).i_unwind_rate = st.i_unwind_rate ∧
    (updateRun st sp m lo spd ff dz).i_rate = st.i_rate ∧
    (updateRun st sp m lo spd ff dz).d_period = st.d_period ∧
    (updateRun st sp m lo spd ff dz).kp_bp = st.kp_bp ∧
    (updateRun st sp m lo spd ff dz).kp_v = st.kp_v ∧
    (updateRun st sp m lo spd ff dz).ki_bp = st.ki_bp ∧
    (updateRun st sp m lo spd ff dz).ki_v = st.ki_v :=
  ⟨rfl, rfl, rfl, rfl, rfl, rfl, rfl, rfl, rfl, rfl⟩

theorem step_preserves_inv (base : PIDState) (last E Kp Ki : ℚ)
    (hdecay0 : 0 ≤ base.i_decay_factor) (hdecay1 : base.i_decay_factor ≤ 1)
    (hu0 : 0 < base.i_unwind_rate) (hu1 : base.i_unwind_rate ≤ 1)
    (s : PIDState) (hs : BoundedInv base last E Kp Ki s) (inp : PIDInput)
    (hE : |apply_deadzone (inp.setpoint - inp.measurement) inp.deadzone| ≤ E)
    (hKp : |interp inp.speed base.kp_bp base.kp_v| ≤ Kp)
    (hKi : |interp inp.speed base.ki_bp base.ki_v| ≤ Ki) :
    BoundedInv base last E Kp Ki
      (updateRun s inp.setpoint inp.measurement last inp.speed inp.feedforward inp.deadzone) := by
  set e := apply_deadzone (inp.setpoint - inp.measurement) inp.deadzone with he
  have hE0 : 0 ≤ E := le_trans (abs_nonneg _) hE
  have hKp0 : 0 ≤ Kp := le_trans (abs_nonneg _) hKp
  have hKi0 : 0 ≤ Ki := le_trans (abs_nonneg _) hKi
  set u := base.i_unwind_rate with hu
  set B := pidIntegralBound base last E Kp Ki with hB
  have hMB : pidM base last E Kp Ki ≤ u * B := by
    have h1 : pidM base last E Kp Ki / u ≤ B := le_max_right _ _
    calc pidM base last E Kp Ki = u * (pidM base last E Kp Ki / u) := by
          field_simp
      _ ≤ u * B := mul_le_mul_of_nonneg_left h1 hu0.le
  obtain ⟨hcn, hcp, hcd, hcu, hcir, hcdp, hc1, hc2, hc3, hc4⟩ :=
    updateRun_config s inp.setpoint inp.measurement last inp.speed inp.feedforward inp.deadzone
  refine ⟨?_, ?_, ?_, hcn.trans hs.hneg, hcp.trans hs.hpos, hcd.trans hs.hdecay,
    hcu.trans hs.hu, hcir.trans hs.hir, hcdp.trans hs.hdp, hc1.trans hs.hkpb,
    hc2.trans hs.hkpv, hc3.trans hs.hkib, hc4.trans hs.hkiv⟩
  · -- the new proportional term
    rw [updateRun_p_eq, hs.hkpb, hs.hkpv]
    calc |e * interp inp.speed base.kp_bp base.kp_v|
        = |e| * |interp inp.speed base.kp_bp base.kp_v| := abs_mul _ _
      _ ≤ E * Kp := mul_le_mul hE hKp (abs_nonneg _) hE0
      _ ≤ pidP0 base E Kp := le_max_right _ _
  · -- the new (clamped) feedforward term
    rw [updateRun_f_eq, hs.hneg, hs.hpos]
    exact le_trans (abs_clip_le _ _ _) (le_max_right _ _)
  · -- the new integrator
    rw [updateRun_i_eq, hs.hkib, hs.hkiv, hs.hdecay, hs.hu, hs.hir]
    set ki := interp inp.speed base.ki_bp base.ki_v with hki
    have hsplit : s.i + e * ki * base.i_rate - u * (s.p + s.i + s.f - last) =
        (1 - u) * s.i + e * ki * base.i_rate - u * (s.p + s.f - last) := by ring
    have habs1 : |e * ki * base.i_rate| ≤ E * Ki * |base.i_rate| := by
      rw [abs_mul, abs_mul]
      exact mul_le_mul_of_nonneg_right
        (mul_le_mul hE hKi (abs_nonneg _) hE0) (abs_nonneg _)
    have habs2 : |s.p + s.f - last| ≤ pidP0 base E Kp + pidF0 base + |last| := by
      calc |s.p + s.f - last| ≤ |s.p + s.f| + |last| := abs_sub _ _
        _ ≤ |s.p| + |s.f| + |last| := by
            have := abs_add s.p s.f
            linarith
        _ ≤ pidP0 base E Kp + pidF0 base + |last| := by
            have := hs.hp
            have := hs.hf
            linarith
    have hiB : |s.i| ≤ B := hs.hi
    have hstep : |s.i + e * ki * base.i_rate - u * (s.p + s.i + s.f - last)| ≤ B := by
      rw [hsplit]
      have h3 : |(1 - u) * s.i + e * ki * base.i_rate - u * (s.p + s.f - last)| ≤
          |(1 - u) * s.i| + |e * ki * base.i_rate| + |u * (s.p + s.f - last)| := by
        calc |(1 - u) * s.i + e * ki * base.i_rate - u * (s.p + s.f - last)|
            ≤ |(1 - u) * s.i + e * ki * base.i_rate| + |u * (s.p + s.f - last)| := abs_sub _ _
          _ ≤ |(1 - u) * s.i| + |e * ki * base.i_rate| + |u * (s.p + s.f - last)| := by
              have := abs_add ((1 - u) * s.i) (e * ki * base.i_rate)
              linarith
      have h4 : |(1 - u) * s.i| ≤ (1 - u) * B := by
        rw [abs_mul, abs_of_nonneg (by linarith : (0:ℚ) ≤ 1 - u)]
        exact mul_le_mul_of_nonneg_left hiB (by linarith)
      have h5 : |u * (s.p + s.f - last)| ≤ u * (pidP0 base E Kp + pidF0 base + |last|) := by
        rw [abs_mul, abs_of_pos hu0]
        exact mul_le_mul_of_nonneg_left habs2 hu0.le
      have h6 : (1 - u) * B + (E * Ki * |base.i_rate| +
          u * (pidP0 base E Kp + pidF0 base + |last|)) ≤ B := by
        have : E * Ki * |base.i_rate| + u * (pidP0 base E Kp + pidF0 base + |last|) =
            pidM base last E Kp Ki := by rw [pidM]
        linarith [hMB]
      linarith
    calc |base.i_decay_factor *
          (s.i + e * ki * base.i_rate - u * (s.p + s.i + s.f - last))|
        = |base.i_decay_factor| *
            |s.i + e * ki * base.i_rate - u * (s.p + s.i + s.f - last)| := abs_mul _ _
      _ ≤ 1 * B := by
          refine mul_le_mul ?_ hstep (abs_nonneg _) zero_le_one
          rw [abs_of_nonneg hdecay0]
          exact hdecay1
      _ = B := one_mul B

theorem runPID_inv (base : PIDState) (last E Kp Ki : ℚ)
    (hdecay0 : 0 ≤ base.i_decay_factor) (hdecay1 : base.i_decay_factor ≤ 1)
    (hu0 : 0 < base.i_unwind_rate) (hu1 : base.i_unwind_rate ≤ 1)
    (hd : 1 ≤ base.d_period) :
    ∀ (inputs : List PIDInput) (s : PIDState), BoundedInv base last E Kp Ki s →
      (∀ inp ∈ inputs, |apply_deadzone (inp.setpoint - inp.measurement) inp.deadzone| ≤ E) →
      (∀ inp ∈ inputs, |interp inp.speed base.kp_bp base.kp_v| ≤ Kp) →
      (∀ inp ∈ inputs, |interp inp.speed base.ki_bp base.ki_v| ≤ Ki) →
      ∀ st', runPID s last inputs = .ok st' → BoundedInv base last E Kp Ki st'
  | [], s, hs, _, _, _, st', hrun => by
    rw [runPID] at hrun
    injection hrun with h1
    exact h1 ▸ hs
  | inp :: rest, s, hs, hE, hKp, hKi, st', hrun => by
    rw [runPID] at hrun
    have hdper : 1 ≤ s.d_period := hs.hdp ▸ hd
    rw [update_eq s _ _ _ _ _ _ hdper] at hrun
    have hstep := step_preserves_inv base last E Kp Ki hdecay0 hdecay1 hu0 hu1 s hs inp
      (hE inp (List.mem_cons_self _ _))
      (hKp inp (List.mem_cons_self _ _))
      (hKi inp (List.mem_cons_self _ _))
    exact runPID_inv base last E Kp Ki hdecay0 hdecay1 hu0 hu1 hd rest _ hstep
      (fun i hi => hE i (List.mem_cons_of_mem _ hi))
      (fun i hi => hKp i (List.mem_cons_of_mem _ hi))
      (fun i hi => hKi i (List.mem_cons_of_mem _ hi)) st' hrun

/-- C7: with `lastAppliedOutput` held fixed across successive
`PIDController.update` calls and bounded (deadzoned) errors and gains, the
integral term stays bounded over all ticks by the explicit bound
`pidIntegralBound` — it cannot diverge; moreover the per-tick integrator
recursion converges: its distance to the fixed point `istar` (defined by
`istar · (1 − i_decay_factor·(1 − i_unwind_rate)) = ` the tick's constant
affine part) shrinks by the factor `1 − i_unwind_rate < 1` at every tick.  The
mechanism is the anti-windup bleed
`i_bf = i_unwind_rate * (p + i + f - last_output)` together with the decay
factor. -/
theorem C7_integral_bounded_under_saturation (st : PIDState) (last E Kp Ki : ℚ)
    (inputs : List PIDInput)
    (hdecay0 : 0 ≤ st.i_decay_factor) (hdecay1 : st.i_decay_factor ≤ 1)
    (hu0 : 0 < st.i_unwind_rate) (hu1 : st.i_unwind_rate ≤ 1)
    (hd : 1 ≤ st.d_period)
    (hE : ∀ inp ∈ inputs, |apply_deadzone (inp.setpoint - inp.measurement) inp.deadzone| ≤ E)
    (hKp : ∀ inp ∈ inputs, |interp inp.speed st.kp_bp st.kp_v| ≤ Kp)
    (hKi : ∀ inp ∈ inputs, |interp inp.speed st.ki_bp st.ki_v| ≤ Ki)
    (st' : PIDState) (hrun : runPID st last inputs = .ok st') :
    |st'.i| ≤ pidIntegralBound st last E Kp Ki ∧
      ∀ (s : PIDState) (sp m spd ff dz istar : ℚ),
        s.i_decay_factor = st.i_decay_factor → s.i_unwind_rate = st.i_unwind_rate →
        istar * (1 - s.i_decay_factor * (1 - s.i_unwind_rate)) =
          s.i_decay_factor *
            (apply_deadzone (sp - m) dz * interp spd s.ki_bp s.ki_v * s.i_rate -
              s.i_unwind_rate * (s.p + s.f - last)) →
        |(updateRun s sp m last spd ff dz).i - istar| ≤
          (1 - st.i_unwind_rate) * |s.i - istar| := by
  constructor
  · have hbase : BoundedInv st last E Kp Ki st :=
      ⟨le_max_left _ _, le_max_left _ _, le_max_left _ _, rfl, rfl, rfl, rfl, rfl, rfl,
        rfl, rfl, rfl, rfl⟩
    exact (runPID_inv st last E Kp Ki hdecay0 hdecay1 hu0 hu1 hd inputs st hbase
      hE hKp hKi st' hrun).hi
  · intro s sp m spd ff dz istar hgs hus hstar
    have hkey : (updateRun s sp m last spd ff dz).i - istar =
        (s.i_decay_factor * (1 - s.i_unwind_rate)) * (s.i - istar) := by
      rw [updateRun_i_eq]
      linear_combination (-1 : ℚ) * hstar
    rw [hkey, abs_mul]
    have hc0 : 0 ≤ s.i_decay_factor * (1 - s.i_unwind_rate) := by
      rw [hgs, hus]
      exact mul_nonneg hdecay0 (by linarith)
    have hc1 : s.i_decay_factor * (1 - s.i_unwind_rate) ≤ 1 - st.i_unwind_rate := by
      rw [hgs, hus]
      calc st.i_decay_factor * (1 - st.i_unwind_rate)
          ≤ 1 * (1 - st.i_unwind_rate) :=
            mul_le_mul_of_nonneg_right hdecay1 (by linarith)
        _ = 1 - st.i_unwind_rate := one_mul _
    rw [abs_of_nonneg hc0]
    exact mul_le_mul_of_nonneg_right hc1 (abs_nonneg _)

theorem C7_integral_bounded_under_saturation_witness :
    (0:ℚ) ≤ wSt.i_decay_factor ∧ wSt.i_decay_factor ≤ 1 ∧
      0 < wSt.i_unwind_rate ∧ wSt.i_unwind_rate ≤ 1 ∧ 1 ≤ wSt.d_period ∧
      (|(updateRun wSt 3 1 0 0 0 0).i| ≤ pidIntegralBound wSt 0 2 1 1 ∧
        |(updateRun wSt 3 1 0 0 0 0).i - 2| ≤ (1 - wSt.i_unwind_rate) * |wSt.i - 2|) :=
  have hmain := C7_integral_bounded_under_saturation wSt 0 2 1 1 [⟨3, 1, 0, 0, 0⟩]
    (by norm_num [wSt]) (by norm_num [wSt]) (by norm_num [wSt]) (by norm_num [wSt])
    (by norm_num [wSt])
    (by intro inp hinp
        simp only [List.mem_singleton] at hinp
        subst hinp
        norm_num [apply_deadzone])
    (by intro inp hinp
        simp only [List.mem_singleton] at hinp
        subst hinp
        norm_num [wSt, interp])
    (by intro inp hinp
        simp only [List.mem_singleton] at hinp
        subst hinp
        norm_num [wSt, interp])
    (updateRun wSt 3 1 0 0 0 0)
    (by rw [runPID, update_eq wSt 3 1 0 0 0 0 (by norm_num [wSt])]; rfl)
  ⟨by norm_num [wSt], by norm_num [wSt], by norm_num [wSt], by norm_num [wSt],
    by norm_num [wSt],
    hmain.1,
    hmain.2 wSt 3 1 0 0 0 2 rfl rfl (by norm_num [wSt, interp, apply_deadzone])⟩

/-- Names bound at module scope in `pid.py`: the three imported names
(`from numbers import Number`, `from common.numpy_fast import clip, interp`)
and the two top-level definitions.  Nothing binds `np`: numpy is never
imported in `pid.py`. -/
def pidModuleNames : List String := ["Number", "clip", "interp", "apply_deadzone", "PIDController"]

/-- The Python builtin names referenced by these modules (`np` is not a Python
builtin). -/
def pyBuiltinNames : List String :=
  ["float", "int", "bool", "isinstance", "round", "len", "min", "max", "abs", "super", "property"]

/-- Resolution of a global name read inside a method of `pid.py`: module scope,
then builtins. -/
def pidResolves (n : String) : Bool := pidModuleNames.contains n || pyBuiltinNames.contains n

/-- A gain argument to `PIDController.__init__`: a scalar (a `Number`) or a
`(breakpoints, values)` pair, as the `isinstance(·, Number)` checks distinguish. -/
inductive GainArg where
  | num (x : ℚ)
  | table (bp v : List ℚ)
  deriving DecidableEq, Repr

/-- The `isinstance(k, Number)` normalization in `__init__`: a scalar `k`
becomes the constant table `[[0], [k]]`. -/
def GainArg.tables : GainArg → List ℚ × List ℚ
  | .num x => ([0], [x])
  | .table bp v => (bp, v)

/-- Python `round` (banker's rounding, half-to-even), used for
`self._d_period = round(derivative_period * rate)`. -/
def pyRound (x : ℚ) : ℤ :=
  let fl := ⌊x⌋
  let fr := x - fl
  if fr < 1/2 then fl
  else if 1/2 < fr then fl + 1
  else if fl % 2 = 0 then fl else fl + 1

/-- `PIDController.__init__` from `pid.py`.  After storing the gains, execution
reaches `self.i_decay_factor = float(np.exp(-1.0 / (rate * i_decay_tau + 1e-6)))`
and must resolve the global name `np`; `pid.py` never imports numpy, so every
call raises `NameError: name 'np' is not defined` and the partially-assigned
instance is discarded.  The `true` branch is unreachable
(`pidResolves "np" = false`); it records the attribute state `__init__` would
otherwise build (with `exp` being irrational, `i_decay_factor` is left `0`
there, and unset `None` limits default to `0`). -/
def PIDController.init (k_p k_i k_d : GainArg) (k_f : ℚ) (pos_limit neg_limit : Option ℚ)
    (rate i_decay_tau derivative_period : ℚ) : Except PyExn PIDState :=
  if pidResolves "np" then
    .ok { kp_bp := k_p.tables.1, kp_v := k_p.tables.2,
          ki_bp := k_i.tables.1, ki_v := k_i.tables.2,
          kd_bp := k_d.tables.1, kd_v := k_d.tables.2,
          k_f := k_f, pos_limit := pos_limit.getD 0, neg_limit := neg_limit.getD 0,
          i_decay_factor := 0, i_unwind_rate := 1 / rate, i_rate := 1 / rate,
          d_period := (pyRound (derivative_period * rate)).toNat, speed := 0,
          p := 0, i := 0, f := 0, control := 0, errors := [] }
  else .error (.nameError "np")

/-- The `CP.lateralTuning.pid` tuning block read by `LatControlPID.__init__`. -/
structure LatTuning where
  kpBP : List ℚ
  kpV : List ℚ
  kiBP : List ℚ
  kiV : List ℚ
  kdBP : List ℚ
  kdV : List ℚ
  kf : ℚ
  newKfTuned : Bool
  deriving DecidableEq, Repr

/-- The attribute state of a `LatControlPID` instance (`latcontrol_pid.py`).
`self.output_steer_last` is initialized to `0.0` and read each tick;
`self.ouptut_steer_last` (sic) is the distinct, misspelled attribute that
`update` actually writes at its end (`none` until first written). -/
structure LatPIDState where
  pid : PIDState
  new_kf_tuned : Bool
  output_steer_last : ℚ
  ouptut_steer_last : Option ℚ
  deriving DecidableEq, Repr

/-- `LatControlPID.__init__`: builds its `PIDController` with the lateral gain
tables, `pos_limit=1.0`, `neg_limit=-1.0`, `derivative_period=0.1` and the
defaults `rate=100`, `i_decay_tau=100`. -/
def LatControlPID.init (tp : LatTuning) : Except PyExn LatPIDState :=
  match PIDController.init (.table tp.kpBP tp.kpV) (.table tp.kiBP tp.kiV)
      (.table tp.kdBP tp.kdV) tp.kf (some 1) (some (-1)) 100 100 (1/10) with
  | .error e => .error e
  | .ok pid => .ok { pid := pid, new_kf_tuned := tp.newKfTuned,
                     output_steer_last := 0, ouptut_steer_last := none }

/-- Modelled from the spec: `DT_CTRL` from `common/realtime` (not under `src/`),
the fixed control-loop period — "executing synchronously at a fixed control-loop
rate"; the PID default and the derivative comment in `pid.py` put that rate at
100 Hz. -/
def DT_CTRL : ℚ := 1 / 100

/-- The `CP.longitudinalTuning` block read by `LongControl`. -/
structure LongTuning where
  kpBP : List ℚ
  kpV : List ℚ
  kiBP : List ℚ
  kiV : List ℚ
  kdBP : List ℚ
  kdV : List ℚ
  deadzoneBP : List ℚ
  deadzoneV : List ℚ
  deriving DecidableEq, Repr

/-- The car-parameter fields read by `longcontrol.py`. -/
structure LongCarParams where
  longitudinalTuning : LongTuning
  vEgoStopping : ℚ
  vEgoStarting : ℚ
  startAccel : ℚ
  stopAccel : ℚ
  stoppingControl : Bool
  stoppingDecelRate : ℚ
  startingAccelRate : ℚ
  deriving DecidableEq, Repr

/-- `car.CarControl.Actuators.LongControlState` (the spec's Off / Tracking /
Stopping / Starting; the code names Tracking `pid`). -/
inductive LongCtrlState where
  | off
  | pid
  | stopping
  | starting
  deriving DecidableEq, Repr

/-- The attribute state of a `LongControl` instance. -/
structure LongState where
  long_control_state : LongCtrlState
  pid : PIDState
  v_pid : ℚ
  last_output_accel : ℚ
  deriving DecidableEq, Repr

/-- `LongControl.__init__`: state machine starts `off`; builds its
`PIDController` with the longitudinal gain tables, `rate = 1 / DT_CTRL`,
`derivative_period = 0.5` and defaults `k_f=1`, limits `None`,
`i_decay_tau=100`. -/
def LongControl.init (cp : LongCarParams) : Except PyExn LongState :=
  match PIDController.init (.table cp.longitudinalTuning.kpBP cp.longitudinalTuning.kpV)
      (.table cp.longitudinalTuning.kiBP cp.longitudinalTuning.kiV)
      (.table cp.longitudinalTuning.kdBP cp.longitudinalTuning.kdV)
      1 none none (1 / DT_CTRL) 100 (1/2) with
  | .error e => .error e
  | .ok pid => .ok { long_control_state := .off, pid := pid, v_pid := 0, last_output_accel := 0 }

/-- C2: every evaluation of `PIDController.__init__` raises
`NameError: name 'np' is not defined` — the `i_decay_factor` line references
`np`, which no import in `pid.py` binds — and consequently constructing a
`LatControlPID` or a `LongControl` (each builds a `PIDController` in its own
`__init__`) raises the same error for every argument list. -/
theorem C2_init_raises_nameError :
    (∀ k_p k_i k_d k_f pos neg rate tau dp,
      PIDController.init k_p k_i k_d k_f pos neg rate tau dp = .error (.nameError "np")) ∧
    (∀ tp, LatControlPID.init tp = .error (.nameError "np")) ∧
    (∀ cp, LongControl.init cp = .error (.nameError "np")) := by
  have hres : pidResolves "np" = false := by decide
  refine ⟨fun k_p k_i k_d k_f pos neg rate tau dp => ?_, fun tp => ?_, fun cp => ?_⟩
  · rw [PIDController.init, hres]
    simp
  · rw [LatControlPID.init, PIDController.init, hres]
    simp
  · rw [LongControl.init, PIDController.init, hres]
    simp

/-- The `radarState.leadOne` snapshot used by `long_control_state_trans`. -/
structure Lead where
  status : Bool
  vLead : ℚ
  deriving DecidableEq, Repr

/-- The transition table computed into the local `long_control_state` by the
body of `long_control_state_trans` (`longcontrol.py`): not-active maps to `off`;
`off` to `pid` when active; `pid` to `stopping` on the stopping condition;
`stopping` to `starting` on the starting condition; `starting` to `stopping` on
the stopping condition, else to `pid` once `output_accel ≥ CP.startAccel`;
otherwise unchanged.  The `radarState` argument models
`radarState`/`radarState.leadOne`, each of which may be `None`. -/
def longControlStateTransNext (cp : LongCarParams) (active : Bool) (s : LongCtrlState)
    (v_ego v_target_future v_target output_accel : ℚ)
    (brake_pressed cruise_standstill : Bool) (radarState : Option (Option Lead)) :
    LongCtrlState :=
  let accelerating := decide (v_target < v_target_future)
  let stopping_condition :=
    (decide (v_ego < 2) && cruise_standstill) ||
      (decide (v_ego < cp.vEgoStopping) &&
        ((decide (v_target_future < cp.vEgoStopping) && !accelerating) || brake_pressed))
  let starting_condition0 :=
    decide (cp.vEgoStarting < v_target_future) && accelerating && !cruise_standstill
  let starting_condition :=
    match radarState with
    | some (some lead) =>
        if lead.status then starting_condition0 && decide (cp.vEgoStarting < lead.vLead)
        else starting_condition0
    | _ => starting_condition0
  if !active then .off
  else
    match s with
    | .off => .pid
    | .pid => if stopping_condition then .stopping else .pid
    | .stopping => if starting_condition then .starting else .stopping
    | .starting =>
        if stopping_condition then .stopping
        else if cp.startAccel ≤ output_accel then .pid
        else .starting

/-- `long_control_state_trans` from `longcontrol.py`: the body computes the next
state into the local `long_control_state`, but the final statement is
`return long_control_stat` — a name bound neither in the function nor at module
scope in `longcontrol.py` — so every call raises
`NameError: name 'long_control_stat' is not defined` instead of returning the
computed state. -/
def long_control_state_trans (cp : LongCarParams) (active : Bool) (s : LongCtrlState)
    (v_ego v_target_future v_target output_accel : ℚ)
    (brake_pressed cruise_standstill : Bool) (radarState : Option (Option Lead)) :
    Except PyExn LongCtrlState :=
  let _long_control_state := longControlStateTransNext cp active s v_ego v_target_future
    v_target output_accel brake_pressed cruise_standstill radarState
  .error (.nameError "long_control_stat")

/-- Concrete car parameters for the longitudinal scenarios. -/
def wCP : LongCarParams :=
  { longitudinalTuning :=
      { kpBP := [0], kpV := [1], kiBP := [0], kiV := [1], kdBP := [0], kdV := [1],
        deadzoneBP := [0], deadzoneV := [0] },
    vEgoStopping := 1/4, vEgoStarting := 1/4, startAccel := 4/5, stopAccel := -2,
    stoppingControl := true, stoppingDecelRate := 4/5, startingAccelRate := 8 }

/-- C3 (code bug): at a concrete input — active, state `off`, rising trajectory —
the freshly computed next state of the transition table is `pid` (Tracking, and
never directly `starting`), exactly as the claim states; but
`long_control_state_trans` itself raises `NameError` on the misspelled
`long_control_stat` instead of returning it. -/
theorem C3_state_trans_typo_nameError :
    longControlStateTransNext wCP true .off 5 6 5 0 false false none = .pid ∧
      long_control_state_trans wCP true .off 5 6 5 0 false false none =
        .error (.nameError "long_control_stat") := by
  constructor
  · rfl
  · rfl

/-- The parameter names of `PIDController.update` after `self`, in signature
order (`pid.py`, line 56). -/
def pidUpdateParamNames : List String :=
  ["setpoint", "measurement", "last_output", "speed", "feedforward", "deadzone"]

/-- The parameters of `PIDController.update` that carry default values. -/
def pidUpdateDefaultedParams : List String := ["speed", "feedforward", "deadzone"]

/-- CPython argument binding for a call `f(p1, …, pn, kw1=…, kwm=…)`: a keyword
that names no parameter raises `TypeError: unexpected keyword argument`;
otherwise a parameter left unbound and without a default raises
`TypeError: missing required positional argument`. -/
def bindPyCall (params defaults : List String) (numPositional : ℕ) (kwargs : List String) :
    Except PyExn Unit :=
  match kwargs.find? (fun k => !params.contains k) with
  | some k => .error (.typeError k)
  | none =>
      let bound := params.take numPositional ++ kwargs
      match params.find? (fun p => !bound.contains p && !defaults.contains p) with
      | some p => .error (.typeError p)
      | none => .ok ()

/-- The keyword names of the `self.pid.update(self.v_pid, CS.vEgo, speed=…,
deadzone=…, feedforward=…, freeze_integrator=…)` call in the Tracking (`pid`)
branch of `LongControl.update`; it passes two positional arguments. -/
def longPidCallKwargs : List String := ["speed", "deadzone", "feedforward", "freeze_integrator"]

/-- C5 (code bug): `PIDController.update` in `pid.py` has no `freeze_integrator`
parameter at all, so no call can hold the integral term unchanged; the
Tracking-branch call in `LongControl.update` that passes `freeze_integrator=`
binds as a `TypeError` (unexpected keyword argument `freeze_integrator`) — and
even with that keyword removed the call would still raise, because the required
`last_output` parameter is never supplied. -/
theorem C5_freeze_integrator_not_supported :
    pidUpdateParamNames.contains "freeze_integrator" = false ∧
      bindPyCall pidUpdateParamNames pidUpdateDefaultedParams 2 longPidCallKwargs =
        .error (.typeError "freeze_integrator") ∧
      bindPyCall pidUpdateParamNames pidUpdateDefaultedParams 2
          ["speed", "deadzone", "feedforward"] =
        .error (.typeError "last_output") :=
  ⟨rfl, rfl, rfl⟩

/-- The planned-trajectory fields read by `LongControl.update`. -/
structure LongPlan where
  speeds : List ℚ
  accels : List ℚ
  deriving DecidableEq, Repr

/-- `ACCEL_MIN_ISO = -3.5 m/s²` (`longcontrol.py`, per ISO 15622:2018). -/
def ACCEL_MIN_ISO : ℚ := -7/2

/-- `ACCEL_MAX_ISO = 2.0 m/s²` (`longcontrol.py`). -/
def ACCEL_MAX_ISO : ℚ := 2

/-- The trajectory-interpolation block of `LongControl.update` before boost and
clamp: when the plan holds exactly `CONTROL_N` speed samples, the targets come
from the plan (`v_target = speeds[0]`, `v_target_future = speeds[-1]`) and the
raw feedforward is the minimum of the two finite-difference estimates at the
lower- and upper-bound actuator delays; otherwise all three default to zero.
`CONTROL_N`, `T_IDXS` and the two `ntune_scc_get` delay bounds live outside
`src/` and are parameters; Python's `speeds[0]`, `speeds[-1]`, `accels[0]` are
modelled with `headD`/`getLastD` (they raise only for empty lists, excluded by
the claims' well-formedness hypotheses). -/
def longPlanRawTargets (control_n : ℕ) (t_idxs : List ℚ) (delayLower delayUpper : ℚ)
    (lp : LongPlan) : ℚ × ℚ × ℚ :=
  if lp.speeds.length = control_n then
    let v_target_lower := interp delayLower (t_idxs.take control_n) lp.speeds
    let a_target_lower :=
      2 * (v_target_lower - lp.speeds.headD 0) / delayLower - lp.accels.headD 0
    let v_target_upper := interp delayUpper (t_idxs.take control_n) lp.speeds
    let a_target_upper :=
      2 * (v_target_upper - lp.speeds.headD 0) / delayUpper - lp.accels.headD 0
    (lp.speeds.headD 0, lp.speeds.getLastD 0, min a_target_lower a_target_upper)
  else (0, 0, 0)

/-- The feedforward actually designated for the PID core by `LongControl.update`:
the raw target boosted by `interp(CS.vEgo, [0., 3.], [1.2, 1.0])` when positive,
then hard-clamped to `[ACCEL_MIN_ISO, ACCEL_MAX_ISO]`. -/
def longPlanTargets (control_n : ℕ) (t_idxs : List ℚ) (delayLower delayUpper : ℚ)
    (lp : LongPlan) (vEgo : ℚ) : ℚ × ℚ × ℚ :=
  let r := longPlanRawTargets control_n t_idxs delayLower delayUpper lp
  let a_target0 := r.2.2
  let a_target1 :=
    if 0 < a_target0 then a_target0 * interp vEgo [0, 3] [12/10, 1] else a_target0
  (r.1, r.2.1, clip a_target1 ACCEL_MIN_ISO ACCEL_MAX_ISO)

/-- C6: for a well-formed plan (exactly `CONTROL_N` speed samples) the raw
feedforward is the minimum of the lower- and upper-bound finite-difference
estimates; the feedforward passed on (after the up-to-×1.2 low-speed boost)
always lies in `[-3.5, 2.0]`; and a missing or malformed plan yields zero
targets and zero feedforward. -/
theorem C6_feedforward_min_and_iso_clamp (control_n : ℕ) (t_idxs : List ℚ)
    (delayLower delayUpper : ℚ) (lp : LongPlan) (vEgo : ℚ) :
    (lp.speeds.length = control_n →
      (longPlanRawTargets control_n t_idxs delayLower delayUpper lp).2.2 =
        min (2 * (interp delayLower (t_idxs.take control_n) lp.speeds - lp.speeds.headD 0)
              / delayLower - lp.accels.headD 0)
            (2 * (interp delayUpper (t_idxs.take control_n) lp.speeds - lp.speeds.headD 0)
              / delayUpper - lp.accels.headD 0)) ∧
    (ACCEL_MIN_ISO ≤ (longPlanTargets control_n t_idxs delayLower delayUpper lp vEgo).2.2 ∧
      (longPlanTargets control_n t_idxs delayLower delayUpper lp vEgo).2.2 ≤ ACCEL_MAX_ISO) ∧
    (lp.speeds.length ≠ control_n →
      longPlanTargets control_n t_idxs delayLower delayUpper lp vEgo = (0, 0, 0)) := by
  refine ⟨?_, ⟨le_clip _ _ _, clip_le _ _ _ (by norm_num [ACCEL_MIN_ISO, ACCEL_MAX_ISO])⟩, ?_⟩
  · intro hlen
    rw [longPlanRawTargets, if_pos hlen]
  · intro hlen
    rw [longPlanTargets, longPlanRawTargets, if_neg hlen]
    norm_num [clip, ACCEL_MIN_ISO, ACCEL_MAX_ISO]

/-- Concrete plan for the C6 witness, realizing the spec scenario
lower-bound estimate `3.0`, upper-bound estimate `1.0`, feedforward `1.0`. -/
def wPlan : LongPlan := { speeds := [1, 5/2], accels := [0, 0] }

theorem C6_feedforward_min_and_iso_clamp_witness :
    wPlan.speeds.length = 2 ∧
      (longPlanRawTargets 2 [0, 1] 1 3 wPlan).2.2 = 1 ∧
      (longPlanRawTargets 2 [0, 1] 1 3 wPlan).2.2 =
        min (2 * (interp 1 ([0, 1].take 2) wPlan.speeds - wPlan.speeds.headD 0) / 1
              - wPlan.accels.headD 0)
            (2 * (interp 3 ([0, 1].take 2) wPlan.speeds - wPlan.speeds.headD 0) / 3
              - wPlan.accels.headD 0) ∧
      ACCEL_MIN_ISO ≤ (longPlanTargets 2 [0, 1] 1 3 wPlan 5).2.2 ∧
      (longPlanTargets 2 [0, 1] 1 3 wPlan 5).2.2 ≤ ACCEL_MAX_ISO :=
  ⟨rfl, by norm_num [longPlanRawTargets, wPlan, interp],
    (C6_feedforward_min_and_iso_clamp 2 [0, 1] 1 3 wPlan 5).1 rfl,
    (C6_feedforward_min_and_iso_clamp 2 [0, 1] 1 3 wPlan 5).2.1.1,
    (C6_feedforward_min_and_iso_clamp 2 [0, 1] 1 3 wPlan 5).2.1.2⟩

/-- Per-tick inputs of `LatControlPID.update`.  `angle_steers_des_no_offset`
stands for `math.degrees(VM.get_steer_from_curvature(-desired_curvature,
CS.vEgo, roll))` (vehicle model, outside `src/`); `steers_max` for
`get_steer_max(CP, CS.vEgo)` (drive helpers, outside `src/`);
`steer_feedforward` for `self.get_steer_feedforward(angle_steers_des_no_offset,
CS.vEgo)` (vehicle-specific, outside `src/`). -/
structure LatInputs where
  active : Bool
  vEgo : ℚ
  steeringAngleDeg : ℚ
  steeringRateDeg : ℚ
  angleOffsetDeg : ℚ
  angle_steers_des_no_offset : ℚ
  steers_max : ℚ
  steer_feedforward : ℚ
  deriving DecidableEq, Repr

/-- The `log.ControlsState.LateralPIDState` diagnostic record filled by
`LatControlPID.update` (capnp fields default to `0`/`False` in a fresh
message). -/
structure LatPIDLog where
  steeringAngleDeg : ℚ
  steeringRateDeg : ℚ
  steeringAngleDesiredDeg : ℚ
  angleError : ℚ
  active : Bool
  p : ℚ
  i : ℚ
  f : ℚ
  output : ℚ
  saturated : Bool
  deriving DecidableEq, Repr

/-- The `lastAppliedOutput` argument that the active branch of
`LatControlPID.update` feeds the PID core:
`CI.calc_last_outputs(self.output_steer_last)`. -/
def latPidLastOutputArg (st : LatPIDState) (calc_last_outputs : ℚ → ℚ) : ℚ :=
  calc_last_outputs st.output_steer_last

/-- `LatControlPID.update` from `latcontrol_pid.py`.  `MIN_STEER_SPEED`,
`CI.calc_last_outputs` and the base-class `self._check_saturation` come from
modules outside `src/` and are parameters (`check_saturation` takes the
condition `steers_max - abs(output_steer) < 1e-3`); `super().reset()` touches
only base-class bookkeeping, not modelled here.  Note the final statement
`self.ouptut_steer_last = output_steer` (sic): it writes a new, misspelled
attribute, so `self.output_steer_last` — the value read back next tick — is
never updated after `__init__`. -/
def LatControlPID.update (st : LatPIDState) (minSteerSpeed : ℚ)
    (calc_last_outputs : ℚ → ℚ) (check_saturation : Bool → Bool) (inp : LatInputs) :
    Except PyExn (LatPIDState × ℚ × ℚ × LatPIDLog) :=
  let angle_steers_des := inp.angle_steers_des_no_offset + inp.angleOffsetDeg
  let log0 : LatPIDLog :=
    { steeringAngleDeg := inp.steeringAngleDeg, steeringRateDeg := inp.steeringRateDeg,
      steeringAngleDesiredDeg := angle_steers_des,
      angleError := angle_steers_des - inp.steeringAngleDeg,
      active := false, p := 0, i := 0, f := 0, output := 0, saturated := false }
  if inp.vEgo < minSteerSpeed ∨ inp.active = false then
    let st1 := { st with pid := st.pid.reset, ouptut_steer_last := some 0 }
    .ok (st1, 0, angle_steers_des, log0)
  else
    let pid0 := { st.pid with pos_limit := inp.steers_max, neg_limit := -inp.steers_max }
    let deadzone : ℚ := 0
    match pid0.update angle_steers_des inp.steeringAngleDeg
        (latPidLastOutputArg st calc_last_outputs) inp.vEgo inp.steer_feedforward deadzone with
    | .error e => .error e
    | .ok pid1 =>
        let output_steer := pid1.control
        let log1 :=
          { log0 with
              active := true
              p := pid1.p
              i := pid1.i
              f := pid1.f
              output := output_steer
              saturated := check_saturation (decide (inp.steers_max - |output_steer| < 1/1000)) }
        .ok ({ st with pid := pid1, ouptut_steer_last := some output_steer },
             output_steer, angle_steers_des, log1)

/-- C8: whenever the speed is below the minimum-steer speed or the controller is
inactive, `LatControlPID.update` returns steering command `0`, the diagnostic
record has `active = False`, and the PID core is reset: `p = i = f = 0`,
`control = 0` and the error history cleared. -/
theorem C8_inactive_zero_command_and_reset (st : LatPIDState) (minSteerSpeed : ℚ)
    (calc_last_outputs : ℚ → ℚ) (check_saturation : Bool → Bool) (inp : LatInputs)
    (h : inp.vEgo < minSteerSpeed ∨ inp.active = false) :
    ∃ st1 des lg,
      LatControlPID.update st minSteerSpeed calc_last_outputs check_saturation inp =
        .ok (st1, 0, des, lg) ∧
      lg.active = false ∧ st1.pid.p = 0 ∧ st1.pid.i = 0 ∧ st1.pid.f = 0 ∧
      st1.pid.control = 0 ∧ st1.pid.errors = [] := by
  rw [LatControlPID.update]
  simp only [if_pos h]
  exact ⟨_, _, _, rfl, rfl, rfl, rfl, rfl, rfl, rfl⟩

/-- A lateral controller state with a dirty PID core, for the C8 witness. -/
def wLatDirty : LatPIDState :=
  { pid := { wSt with p := 5, i := 7, f := 1, control := 2, errors := [1, 2] },
    new_kf_tuned := false, output_steer_last := 3, ouptut_steer_last := none }

/-- Inactive-tick inputs for the C8 witness (speed below the 0.5 m/s cutoff and
inactive). -/
def wLatInpOff : LatInputs :=
  { active := false, vEgo := 1/4, steeringAngleDeg := 2, steeringRateDeg := 0,
    angleOffsetDeg := 1, angle_steers_des_no_offset := 4, steers_max := 1,
    steer_feedforward := 3 }

theorem C8_inactive_zero_command_and_reset_witness :
    (wLatInpOff.vEgo < 1/2 ∨ wLatInpOff.active = false) ∧
      ∃ st1 des lg,
        LatControlPID.update wLatDirty (1/2) id id wLatInpOff = .ok (st1, 0, des, lg) ∧
        lg.active = false ∧ st1.pid.p = 0 ∧ st1.pid.i = 0 ∧ st1.pid.f = 0 ∧
        st1.pid.control = 0 ∧ st1.pid.errors = [] :=
  ⟨Or.inr rfl,
    C8_inactive_zero_command_and_reset wLatDirty (1/2) id id wLatInpOff (Or.inr rfl)⟩

/-- A fresh lateral controller state (as `__init__` would build it around a
working PID core): `output_steer_last = 0`. -/
def wLatInit : LatPIDState :=
  { pid := wSt, new_kf_tuned := false, output_steer_last := 0, ouptut_steer_last := none }

/-- Active-tick inputs for the C4 scenario. -/
def wLatInpOn : LatInputs :=
  { active := true, vEgo := 10, steeringAngleDeg := 0, steeringRateDeg := 0,
    angleOffsetDeg := 0, angle_steers_des_no_offset := 2, steers_max := 1,
    steer_feedforward := 0 }

/-- The lateral state after the C4 active tick (the PID core saturates the raw
command `4` to the `steers_max = 1` limit). -/
def wLatAfter : LatPIDState :=
  { pid := { wSt with speed := 10, p := 2, i := 2, f := 0, control := 1, errors := [2] },
    new_kf_tuned := false, output_steer_last := 0, ouptut_steer_last := some 1 }

/-- The diagnostic record of the C4 active tick. -/
def wLatLog : LatPIDLog :=
  { steeringAngleDeg := 0, steeringRateDeg := 0, steeringAngleDesiredDeg := 2,
    angleError := 2, active := true, p := 2, i := 2, f := 0, output := 1, saturated := true }

/-- C4 (code bug): after an active tick whose produced and stored steering
output is `1 ≠ 0`, the attribute `self.output_steer_last` still holds the
initial `0` — the tick's output went to the misspelled `self.ouptut_steer_last`
— so the `lastAppliedOutput` fed into the next tick's anti-windup bleed is
`calc_last_outputs(0)`, derived from the stale initial value rather than from
the output actually produced at the previous tick. -/
theorem C4_stale_last_applied_output :
    LatControlPID.update wLatInit 1 id id wLatInpOn = .ok (wLatAfter, 1, 2, wLatLog) ∧
      wLatAfter.ouptut_steer_last = some 1 ∧
      wLatAfter.output_steer_last = 0 ∧
      latPidLastOutputArg wLatAfter id = 0 := by
  refine ⟨?_, rfl, rfl, rfl⟩
  simp only [LatControlPID.update, latPidLastOutputArg]
  rw [if_neg (by norm_num [wLatInpOn])]
  rw [update_eq _ _ _ _ _ _ _ (by norm_num [wLatInit, wSt])]
  simp only [wLatInit, wLatInpOn, wLatAfter, wLatLog, wSt, updateRun, dTermVal, interp,
    apply_deadzone, clip, PIDState.k_f]
  norm_num

end Op5
